import Mathlib

/-!
Shallow embedding of the MIDI synthesizer core (note routing, semitone
policy, actuation dispatch, strike scheduling, and the persisted
configuration record) together with theorems checking the specification's
claims against it.

Machine integers of the C source (`uint8_t`, `uint16_t`, `uint32_t`) are
modelled as `Nat` with explicit `% 2^w` at the points where the source's
arithmetic can wrap.  Fallible operations return the success flag the C
functions return, paired with the updated state and the list of bus
commands that were attempted, so that "no write happened" is expressible.
-/

set_option maxRecDepth 8192

namespace MidiSynth

/-- Semitone handling mode (`i2c_midi_semitone_mode_t`,
`pca9685_midi_semitone_mode_t`, `mallet_midi_semitone_mode_t`):
0 = PLAY, 1 = IGNORE, 2 = SKIP. -/
inductive SemitoneMode where
  | play
  | ignore
  | skip
deriving DecidableEq, Repr

/-- From `is_semitone` (identical in i2c_midi.c, i2c_pca9685_midi.c,
mallet_midi.c): a note is a semitone when `note % 12` is one of
1, 3, 6, 8, 10 (C#, D#, F#, G#, A#). -/
def is_semitone (note : Nat) : Bool :=
  let r := note % 12
  r = 1 || r = 3 || r = 6 || r = 8 || r = 10

/-- No two consecutive byte values are both semitones (the semitone
positions 1, 3, 6, 8, 10 in an octave are pairwise non-adjacent, and the
`uint8_t` wrap from 255 to 0 lands on a non-semitone). -/
lemma is_semitone_succ : ∀ c, c < 256 → is_semitone c = true →
    is_semitone ((c + 1) % 256) = false := by decide

/-- Count of the non-semitone notes n with `low ≤ n ≤ high`
(0 when `high < low`).  Specification-side counting function used to
state properties of the high-note computations and of the pin index
loop `for (n = low_note; n < note; n++) if (!is_semitone(n)) pin++;`. -/
def countNS (low high : Nat) : Nat :=
  ((List.range (high + 1 - low)).map (· + low)).countP (fun n => ! is_semitone n)

/-- Loop of i2c_midi.c `calculate_high_note` for the IGNORE/SKIP modes:
`while (count < note_range && current_note < 127) { if (!is_semitone(current_note))
{ count++; if (count == note_range) return current_note; } current_note++; }
return current_note;`.  The loop advances `current` by exactly one per
iteration and stops once `current` reaches 127, so running it with
structural fuel 127 never exhausts the fuel before the guard exits: the
fuel-out branch is unreachable from `i2c_calculate_high_note`. -/
def i2cHighLoop : Nat → Nat → Nat → Nat → Nat
  | 0, _, _, current => current
  | fuel + 1, range, count, current =>
    if count < range ∧ current < 127 then
      if is_semitone current then
        i2cHighLoop fuel range count (current + 1)
      else if count + 1 = range then
        current
      else
        i2cHighLoop fuel range (count + 1) (current + 1)
    else
      current

/-- From i2c_midi.c `calculate_high_note`.  In PLAY mode the C source
returns the `uint8_t` truncation of `low_note + note_range - 1` (computed
in `int`, so `low_note = note_range = 0` wraps to 255). -/
def i2c_calculate_high_note (low_note note_range : Nat) (mode : SemitoneMode) : Nat :=
  if mode = SemitoneMode.play then
    (low_note + note_range + 255) % 256
  else
    i2cHighLoop 127 note_range 0 low_note

/-- Loop of i2c_pca9685_midi.c `calculate_high_note` for the IGNORE/SKIP
modes: `while (count < note_range) { if (!is_semitone(current_note)) count++;
if (count < note_range) current_note++; } return current_note;` with
`current_note` a `uint8_t` (its value is kept reduced mod 256; the
increment wraps at 256).  There is no clamp at note 127.  Each needed
count consumes at most two iterations (semitones are never adjacent), so
the loop performs fewer than `2 * note_range` iterations and the
structural fuel `2 * note_range` used by `pca_calculate_high_note` never
runs out before the loop returns. -/
def pcaHighLoop : Nat → Nat → Nat → Nat → Nat
  | 0, _, _, current => current % 256
  | fuel + 1, range, count, current =>
    if count < range then
      if is_semitone (current % 256) then
        pcaHighLoop fuel range count (current % 256 + 1)
      else if count + 1 < range then
        pcaHighLoop fuel range (count + 1) (current % 256 + 1)
      else
        current % 256
    else
      current % 256

/-- From i2c_pca9685_midi.c `calculate_high_note`. -/
def pca_calculate_high_note (low_note note_range : Nat) (mode : SemitoneMode) : Nat :=
  if mode = SemitoneMode.play then
    (low_note + note_range + 255) % 256
  else
    pcaHighLoop (2 * note_range) note_range 0 low_note

/-- Loop of mallet_midi.c `calculate_high_note` (same text as the
pca9685 one: no clamp at 127, `uint8_t` wraparound, fuel `2 * note_range`
never exhausted for the same reason). -/
def malletHighLoop : Nat → Nat → Nat → Nat → Nat
  | 0, _, _, current => current % 256
  | fuel + 1, range, count, current =>
    if count < range then
      if is_semitone (current % 256) then
        malletHighLoop fuel range count (current % 256 + 1)
      else if count + 1 < range then
        malletHighLoop fuel range (count + 1) (current % 256 + 1)
      else
        current % 256
    else
      current % 256

/-- From mallet_midi.c `calculate_high_note`. -/
def mallet_calculate_high_note (low_note note_range : Nat) (mode : SemitoneMode) : Nat :=
  if mode = SemitoneMode.play then
    (low_note + note_range + 255) % 256
  else
    malletHighLoop (2 * note_range) note_range 0 low_note

/-- The semitone classifier only depends on the pitch class. -/
lemma is_semitone_mod12 (a : Nat) : is_semitone a = is_semitone (a % 12) := by
  unfold is_semitone
  have h : a % 12 % 12 = a % 12 := by omega
  rw [h]

/-- A semitone is never followed by another semitone (no wraparound). -/
lemma is_semitone_succ_plain (a : Nat) (h : is_semitone a = true) :
    is_semitone (a + 1) = false := by
  have h1 : ∀ r, r < 12 → is_semitone r = true → is_semitone ((r + 1) % 12) = false := by
    decide
  have e1 : (a + 1) % 12 = (a % 12 + 1) % 12 := by omega
  rw [is_semitone_mod12 (a + 1), e1]
  rw [is_semitone_mod12 a] at h
  exact h1 (a % 12) (by omega) h

lemma countNS_of_lt (low high : Nat) (h : high < low) : countNS low high = 0 := by
  unfold countNS
  have e : high + 1 - low = 0 := by omega
  rw [e]
  rfl

lemma countNS_self (low : Nat) :
    countNS low low = if is_semitone low then 0 else 1 := by
  unfold countNS
  have e : low + 1 - low = 1 := by omega
  rw [e, List.range_succ]
  cases h : is_semitone low <;> simp [h]

lemma countNS_succ_top (low high : Nat) (h : low ≤ high + 1) :
    countNS low (high + 1) = countNS low high + (if is_semitone (high + 1) then 0 else 1) := by
  unfold countNS
  have e : high + 1 + 1 - low = (high + 1 - low) + 1 := by omega
  rw [e, List.range_succ]
  simp only [List.map_append, List.map_cons, List.map_nil, List.countP_append,
    List.countP_cons, List.countP_nil]
  have e2 : high + 1 - low + low = high + 1 := by omega
  rw [e2]
  cases hs : is_semitone (high + 1) <;> simp [hs]

lemma countNS_head (low high : Nat) (h : low ≤ high) :
    countNS low high = (if is_semitone low then 0 else 1) + countNS (low + 1) high := by
  unfold countNS
  have e : high + 1 - low = (high + 1 - (low + 1)) + 1 := by omega
  rw [e, List.range_succ_eq_map, List.map_cons, List.countP_cons, List.map_map]
  have e4 : ((· + low) ∘ Nat.succ) = (· + (low + 1)) := by
    funext n
    show Nat.succ n + low = n + (low + 1)
    omega
  rw [e4]
  cases hs : is_semitone low <;> (simp [hs]; try omega)

lemma countNS_mono (low : Nat) : ∀ h1 h2, h1 ≤ h2 → countNS low h1 ≤ countNS low h2 := by
  intro h1 h2 hle
  induction h2 with
  | zero =>
    have e : h1 = 0 := by omega
    rw [e]
  | succ k ih =>
    rcases Nat.lt_or_ge h1 (k + 1) with hlt | hge
    · rcases Nat.lt_or_ge (k + 1) low with hl | hl
      · rw [countNS_of_lt low h1 (by omega), countNS_of_lt low (k + 1) hl]
      · rw [countNS_succ_top low k hl]
        have := ih (by omega)
        omega
    · have e : h1 = k + 1 := by omega
      rw [e]

lemma countNS_pos_of_nonsemi (a high : Nat) (ha : is_semitone a = false) (h : a ≤ high) :
    1 ≤ countNS a high := by
  have h1 : countNS a a ≤ countNS a high := countNS_mono a a high h
  rw [countNS_self, ha] at h1
  simpa using h1

/-- Density of non-semitone notes: the window `[low, low + 2n]` always
contains at least n non-semitones. -/
lemma countNS_density (low : Nat) : ∀ n, n ≤ countNS low (low + 2 * n) := by
  intro n
  induction n with
  | zero => omega
  | succ k ih =>
    have e : low + 2 * (k + 1) = (low + 2 * k + 1) + 1 := by omega
    rw [e, countNS_succ_top low (low + 2 * k + 1) (by omega),
        countNS_succ_top low (low + 2 * k) (by omega)]
    have hpair : 1 ≤ (if is_semitone (low + 2 * k + 1) then (0 : Nat) else 1) +
        (if is_semitone (low + 2 * k + 1 + 1) then (0 : Nat) else 1) := by
      by_cases hs : is_semitone (low + 2 * k + 1) = true
      · have hs2 : is_semitone (low + 2 * k + 1 + 1) = false := is_semitone_succ_plain _ hs
        simp [hs, hs2]
      · simp [hs]
    omega

/-- Any high note satisfying the exact-count characterization at a
non-semitone is the smallest note whose window holds exactly n
non-semitones. -/
lemma countNS_minimal (low h n : Nat) (_hn : 1 ≤ n) (hlh : low ≤ h)
    (hc : countNS low h = n) (hs : is_semitone h = false) :
    ∀ k, low ≤ k → countNS low k = n → h ≤ k := by
  intro k _ hk
  by_contra hlt
  push_neg at hlt
  have hh : 1 ≤ h := by
    by_contra h0
    omega
  have e : h - 1 + 1 = h := by omega
  have hsplit : countNS low h = countNS low (h - 1) + 1 := by
    conv_lhs => rw [← e]
    rw [countNS_succ_top low (h - 1) (by omega), e, hs]
    simp
  have hm : countNS low k ≤ countNS low (h - 1) := countNS_mono low k (h - 1) (by omega)
  omega

/-- Correctness of the i2c_midi high-note loop when enough non-semitone
notes remain at or below 127: it returns the note at which the count is
satisfied, characterized by the exact-count property. -/
lemma i2cHighLoop_correct : ∀ fuel count range current, count < range → current ≤ 127 →
    range - count ≤ countNS current 127 → 127 - current ≤ fuel →
    current ≤ i2cHighLoop fuel range count current ∧
    countNS current (i2cHighLoop fuel range count current) = range - count ∧
    is_semitone (i2cHighLoop fuel range count current) = false := by
  intro fuel
  induction fuel with
  | zero =>
    intro count range current hcr hc127 hsuf hfuel
    have e : current = 127 := by omega
    subst e
    have h127 : countNS 127 127 = 1 := by decide
    simp only [i2cHighLoop]
    exact ⟨Nat.le_refl _, by omega, by decide⟩
  | succ fuel ih =>
    intro count range current hcr hc127 hsuf hfuel
    rcases Nat.lt_or_ge current 127 with hlt | hge
    · simp only [i2cHighLoop, if_pos (And.intro hcr hlt)]
      by_cases hs : is_semitone current = true
      · -- semitone: advance without counting
        rw [if_pos hs]
        have hhead : countNS current 127 = countNS (current + 1) 127 := by
          rw [countNS_head current 127 (by omega), hs]
          simp
        obtain ⟨ih1, ih2, ih3⟩ := ih count range (current + 1) hcr (by omega)
          (by omega) (by omega)
        refine ⟨by omega, ?_, ih3⟩
        rw [countNS_head current _ (by omega : current ≤ i2cHighLoop fuel range count (current + 1)), hs]
        simpa using ih2
      · -- whole tone
        have hs' : is_semitone current = false := by
          cases h2 : is_semitone current
          · rfl
          · exact absurd h2 hs
        rw [if_neg hs]
        by_cases hlast : count + 1 = range
        · rw [if_pos hlast]
          refine ⟨Nat.le_refl _, ?_, hs'⟩
          rw [countNS_self, hs']
          simp only [Bool.false_eq_true, if_false]
          omega
        · rw [if_neg hlast]
          have hhead : countNS current 127 = 1 + countNS (current + 1) 127 := by
            rw [countNS_head current 127 (by omega), hs']
            simp
          obtain ⟨ih1, ih2, ih3⟩ := ih (count + 1) range (current + 1) (by omega) (by omega)
            (by omega) (by omega)
          refine ⟨by omega, ?_, ih3⟩
          rw [countNS_head current _
            (by omega : current ≤ i2cHighLoop fuel range (count + 1) (current + 1)), hs']
          simp only [Bool.false_eq_true, if_false]
          omega
    · have e : current = 127 := by omega
      subst e
      have h127 : countNS 127 127 = 1 := by decide
      have hng : ¬(count < range ∧ (127 : Nat) < 127) := by
        intro hx
        exact Nat.lt_irrefl _ hx.2
      simp only [i2cHighLoop]
      rw [if_neg hng]
      exact ⟨Nat.le_refl _, by omega, by decide⟩

/-- Correctness of the pca9685/mallet high-note loop when enough
non-semitone notes remain at or below 127 (each needed count consumes at
most two fuel units, so the stated fuel budget suffices). -/
lemma pcaHighLoop_correct : ∀ fuel count range current, count < range → current ≤ 127 →
    range - count ≤ countNS current 127 →
    2 * (range - count) - 1 + (if is_semitone current then 1 else 0) ≤ fuel →
    current ≤ pcaHighLoop fuel range count current ∧
    countNS current (pcaHighLoop fuel range count current) = range - count ∧
    is_semitone (pcaHighLoop fuel range count current) = false := by
  intro fuel
  induction fuel with
  | zero =>
    intro count range current hcr hc127 hsuf hfuel
    exfalso
    omega
  | succ fuel ih =>
    intro count range current hcr hc127 hsuf hfuel
    have hcur : current % 256 = current := Nat.mod_eq_of_lt (by omega)
    simp only [pcaHighLoop, hcur]
    rw [if_pos hcr]
    by_cases hs : is_semitone current = true
    · -- semitone: advance without counting; the next note is a whole tone
      rw [if_pos hs]
      have hlt : current < 127 := by
        rcases Nat.lt_or_ge current 127 with h | h
        · exact h
        · have e : current = 127 := by omega
          rw [e] at hs
          exact absurd hs (by decide)
      have hs2 : is_semitone (current + 1) = false := is_semitone_succ_plain _ hs
      have e1 : (if is_semitone current then (1 : Nat) else 0) = 1 := by simp [hs]
      have e2 : (if is_semitone (current + 1) then (1 : Nat) else 0) = 0 := by simp [hs2]
      rw [e1] at hfuel
      have hhead : countNS current 127 = countNS (current + 1) 127 := by
        rw [countNS_head current 127 (by omega), hs]
        simp
      obtain ⟨ih1, ih2, ih3⟩ := ih count range (current + 1) hcr (by omega)
        (by omega) (by rw [e2]; omega)
      refine ⟨by omega, ?_, ih3⟩
      rw [countNS_head current _ (by omega : current ≤ pcaHighLoop fuel range count (current + 1)), hs]
      simpa using ih2
    · have hs' : is_semitone current = false := by
        cases h2 : is_semitone current
        · rfl
        · exact absurd h2 hs
      rw [if_neg hs]
      have e1 : (if is_semitone current then (1 : Nat) else 0) = 0 := by simp [hs']
      rw [e1] at hfuel
      by_cases h2 : count + 1 < range
      · rw [if_pos h2]
        have hlt : current < 127 := by
          rcases Nat.lt_or_ge current 127 with h | h
          · exact h
          · exfalso
            have e : current = 127 := by omega
            subst e
            have h127 : countNS 127 127 = 1 := by decide
            omega
        have hb : (if is_semitone (current + 1) then (1 : Nat) else 0) ≤ 1 := by
          cases h3 : is_semitone (current + 1) <;> simp
        have hhead : countNS current 127 = 1 + countNS (current + 1) 127 := by
          rw [countNS_head current 127 (by omega), hs']
          simp
        obtain ⟨ih1, ih2, ih3⟩ := ih (count + 1) range (current + 1) (by omega) (by omega)
          (by omega) (by omega)
        refine ⟨by omega, ?_, ih3⟩
        rw [countNS_head current _
          (by omega : current ≤ pcaHighLoop fuel range (count + 1) (current + 1)), hs']
        simp only [Bool.false_eq_true, if_false]
        omega
      · rw [if_neg h2]
        refine ⟨Nat.le_refl _, ?_, hs'⟩
        rw [countNS_self, hs']
        simp only [Bool.false_eq_true, if_false]
        omega

/-- When fewer than the requested number of non-semitone notes remain at
or below 127, the i2c_midi loop runs into its `current_note < 127` bound
and returns exactly 127. -/
lemma i2cHighLoop_clamp : ∀ fuel count range current, count < range → current ≤ 127 →
    countNS current 127 < range - count → 127 - current ≤ fuel →
    i2cHighLoop fuel range count current = 127 := by
  intro fuel
  induction fuel with
  | zero =>
    intro count range current hcr hc127 hins hfuel
    have e : current = 127 := by omega
    subst e
    simp only [i2cHighLoop]
  | succ fuel ih =>
    intro count range current hcr hc127 hins hfuel
    rcases Nat.lt_or_ge current 127 with hlt | hge
    · simp only [i2cHighLoop, if_pos (And.intro hcr hlt)]
      by_cases hs : is_semitone current = true
      · rw [if_pos hs]
        have hhead : countNS current 127 = countNS (current + 1) 127 := by
          rw [countNS_head current 127 (by omega), hs]
          simp
        exact ih count range (current + 1) hcr (by omega) (by omega) (by omega)
      · have hs' : is_semitone current = false := by
          cases h2 : is_semitone current
          · rfl
          · exact absurd h2 hs
        rw [if_neg hs]
        have hpos : 1 ≤ countNS current 127 := countNS_pos_of_nonsemi current 127 hs' (by omega)
        have hhead : countNS current 127 = 1 + countNS (current + 1) 127 := by
          rw [countNS_head current 127 (by omega), hs']
          simp
        by_cases hlast : count + 1 = range
        · exfalso
          omega
        · rw [if_neg hlast]
          exact ih (count + 1) range (current + 1) (by omega) (by omega) (by omega) (by omega)
    · have e : current = 127 := by omega
      subst e
      have hng : ¬(count < range ∧ (127 : Nat) < 127) := by
        intro hx
        exact Nat.lt_irrefl _ hx.2
      simp only [i2cHighLoop]
      rw [if_neg hng]

/-- Skip-remap loop of i2c_midi.c `map_note_for_mode`:
`uint8_t next_note = note + 1; while (next_note < 127 && is_semitone(next_note))
next_note++; return next_note;`.  The loop advances by one per iteration
and stops at 127, so fuel 127 is never exhausted before the guard exits. -/
def i2cSkipLoop : Nat → Nat → Nat
  | 0, next => next
  | fuel + 1, next =>
    if next < 127 ∧ is_semitone next then
      i2cSkipLoop fuel (next + 1)
    else
      next

/-- From i2c_midi.c `map_note_for_mode`: PLAY returns the note; SKIP
advances a semitone to the next whole tone (bounded at 127); IGNORE
returns the note unchanged (it is filtered out by the caller). -/
def map_note_for_mode (note : Nat) (mode : SemitoneMode) : Nat :=
  if mode = SemitoneMode.play then
    note
  else if mode = SemitoneMode.skip then
    if is_semitone note then
      i2cSkipLoop 127 ((note + 1) % 256)
    else
      note
  else
    note

/-- Policy fields of `i2c_midi_config_t` that `i2c_midi_process_message`
reads (`midi_channel` is kept as the 1-16 value the library expects;
`high_note` is a stored field recomputed by the setters). -/
structure I2cMidiConfig where
  midi_channel : Nat
  note_range : Nat
  low_note : Nat
  high_note : Nat
  semitone_mode : SemitoneMode
deriving DecidableEq, Repr

/-- Routing decision of `i2c_midi_process_message`: either the message is
dropped (`rejected`, the C function returns false without touching any
state) or it maps to a pin with an on/off command. -/
inductive RouteResult where
  | rejected
  | noteOn (pin : Nat)
  | noteOff (pin : Nat)
deriving DecidableEq, Repr

/-- Note-message classification at the end of `i2c_midi_process_message`:
`MIDI_NOTE_ON (0x90)` with velocity > 0 is a note-on; `MIDI_NOTE_OFF
(0x80)`, or note-on with velocity 0, is a note-off; anything else is not
a note message and is dropped. -/
def classify_note_message (message_type velocity : Nat) : Option Bool :=
  if message_type = 0x90 ∧ 0 < velocity then
    some true
  else if message_type = 0x80 ∨ (message_type = 0x90 ∧ velocity = 0) then
    some false
  else
    none

/-- Stages of `i2c_midi_process_message` up to and including the pin
computation: channel filter (`channel = (status & 0x0F) + 1` compared with
`config.midi_channel`), semitone handling, range check against
`[low_note, high_note]`, then the pin index (direct offset in PLAY mode,
whole-tone count `for (n = low_note; n < note; n++) if (!is_semitone(n))
pin++;` otherwise).  Returns `none` where the C code returns false. -/
def i2c_midi_accepted_pin (cfg : I2cMidiConfig) (status note : Nat) : Option Nat :=
  let channel := (status &&& 0x0F) + 1
  if channel ≠ cfg.midi_channel then
    none
  else if is_semitone note ∧ cfg.semitone_mode = SemitoneMode.ignore then
    none
  else
    let note1 := if is_semitone note then map_note_for_mode note cfg.semitone_mode else note
    if note1 < cfg.low_note ∨ cfg.high_note < note1 then
      none
    else if cfg.semitone_mode = SemitoneMode.play then
      some (note1 - cfg.low_note)
    else
      some (((List.range (note1 - cfg.low_note)).map (· + cfg.low_note)).countP
        (fun n => ! is_semitone n))

/-- Full routing decision of `i2c_midi_process_message`, including the
capacity check `if (pin >= max_pins) return false` and the final
note-on/note-off classification. -/
def i2c_midi_route (cfg : I2cMidiConfig) (maxPins status note velocity : Nat) : RouteResult :=
  match i2c_midi_accepted_pin cfg status note with
  | none => RouteResult.rejected
  | some pin =>
    if maxPins ≤ pin then
      RouteResult.rejected
    else
      match classify_note_message (status &&& 0xF0) velocity with
      | some true => RouteResult.noteOn pin
      | some false => RouteResult.noteOff pin
      | none => RouteResult.rejected

/-- From i2c_midi.c `i2c_midi_set_pin`.  `pin_state` is the `uint8_t`
shadow bitmask; the C code updates it BEFORE attempting the expander
write (`io_set_pin`), and does not roll it back on failure.  The result
is `(returned flag, new pin_state, attempted expander writes)`; the
expander write outcome is abstracted by `ioWriteOk`. -/
def i2c_midi_set_pin (maxPins : Nat) (ioWriteOk : Bool) (pinState pin : Nat) (state : Bool) :
    Bool × Nat × List (Nat × Bool) :=
  if maxPins ≤ pin then
    (false, pinState, [])
  else
    let newState :=
      if state then
        (pinState ||| (2 ^ pin)) % 256
      else
        pinState &&& (255 ^^^ (2 ^ pin % 256))
    (ioWriteOk, newState, [(pin, state)])

/-- From i2c_midi.c `i2c_midi_process_message`: routing decision followed
by `i2c_midi_set_pin`.  Rejections return false and leave `pin_state`
untouched with no bus write. -/
def i2c_midi_process_message (cfg : I2cMidiConfig) (maxPins : Nat) (ioWriteOk : Bool)
    (pinState status note velocity : Nat) : Bool × Nat × List (Nat × Bool) :=
  match i2c_midi_route cfg maxPins status note velocity with
  | RouteResult.rejected => (false, pinState, [])
  | RouteResult.noteOn pin => i2c_midi_set_pin maxPins ioWriteOk pinState pin true
  | RouteResult.noteOff pin => i2c_midi_set_pin maxPins ioWriteOk pinState pin false

/-- From midi_handler.c `midi_handler_set_channel`: accepts 0-15 or the
all-channels sentinel 0xFF and stores the value directly into
`i2c_midi_ctx.config.midi_channel`; everything else is refused, leaving
the configuration unchanged.  Result is `(returned flag, stored value)`. -/
def midi_handler_set_channel (current channel : Nat) : Bool × Nat :=
  if 15 < channel ∧ channel ≠ 0xFF then
    (false, current)
  else
    (true, channel)

/-- Policy fields of `pca9685_midi_config_t` read by the message and
update paths.  `midi_channel` here is compared directly with
`status & 0x0F` (0-based).  Angles are `uint16_t`. -/
structure PcaConfig where
  midi_channel : Nat
  note_range : Nat
  low_note : Nat
  high_note : Nat
  semitone_mode : SemitoneMode
  simple_strike_mode : Bool
  rest_angle : Nat
  strike_angle : Nat
  strike_duration_ms : Nat
  min_degree : Nat
  max_degree : Nat
deriving DecidableEq, Repr

/-- One entry of `servo_states[16]` (`pca9685_midi_servo_state_t`):
current note, current angle, striking flag and the `uint32_t` absolute
return time in microseconds. -/
structure ServoState where
  current_note : Nat
  current_angle : Nat
  striking : Bool
  return_time : Nat
deriving DecidableEq, Repr

/-- The 16-entry servo state array. -/
def ServoStates := Fin 16 → ServoState

/-- From i2c_pca9685_midi.c `pca9685_midi_note_to_servo`, up to (but not
including) its final capacity check: range check on the raw note, IGNORE
filter, SKIP advance by one (`note++`, `uint8_t`, rejected if pushed past
`high_note`), then the servo index (direct offset in PLAY mode, whole-tone
count otherwise). -/
def pca9685_midi_computed_index (cfg : PcaConfig) (note : Nat) : Option Nat :=
  if note < cfg.low_note ∨ cfg.high_note < note then
    none
  else if cfg.semitone_mode = SemitoneMode.ignore ∧ is_semitone note then
    none
  else
    let note1 :=
      if cfg.semitone_mode = SemitoneMode.skip ∧ is_semitone note then
        (note + 1) % 256
      else
        note
    if cfg.semitone_mode = SemitoneMode.skip ∧ is_semitone note ∧ cfg.high_note < note1 then
      none
    else if cfg.semitone_mode = SemitoneMode.play then
      some (note1 - cfg.low_note)
    else
      some (((List.range (note1 - cfg.low_note)).map (· + cfg.low_note)).countP
        (fun n => ! is_semitone n))

/-- From i2c_pca9685_midi.c `pca9685_midi_note_to_servo` including its
final check `if (*servo_index >= note_range) return false`. -/
def pca9685_midi_note_to_servo (cfg : PcaConfig) (note : Nat) : Option Nat :=
  match pca9685_midi_computed_index cfg note with
  | none => none
  | some idx => if cfg.note_range ≤ idx then none else some idx

/-- Strike angle selection in `pca9685_midi_strike_servo`: the uniform
`strike_angle` in SIMPLE mode, or a linear interpolation
`min_degree + (servo_index * (max_degree - min_degree)) / (note_range - 1)`
(computed in C `int` arithmetic, stored into a `uint16_t`). -/
def pca9685_strike_angle_of (cfg : PcaConfig) (idx : Nat) : Nat :=
  if cfg.simple_strike_mode then
    cfg.strike_angle
  else if 1 < cfg.note_range then
    (((cfg.min_degree : Int) +
      ((idx : Int) * ((cfg.max_degree : Int) - (cfg.min_degree : Int))) /
        ((cfg.note_range : Int) - 1)).emod 65536).toNat
  else
    (cfg.min_degree + cfg.max_degree) / 2

/-- From i2c_pca9685_midi.c `pca9685_midi_strike_servo`: bounds check,
strike-angle command to the PCA9685 (`pca9685_set_servo_angle`, outcome
abstracted by `ioWriteOk`), and — only if the write succeeded — the state
update arming the return at `time_us_32() + strike_duration_ms * 1000`
(`uint32_t` wraparound).  Result is
`(returned flag, new states, attempted servo commands)`. -/
def pca9685_midi_strike_servo (cfg : PcaConfig) (ioWriteOk : Bool) (now : Nat)
    (sts : ServoStates) (idx : Nat) : Bool × ServoStates × List (Nat × Nat) :=
  if h : idx < 16 then
    let angle := pca9685_strike_angle_of cfg idx
    if ioWriteOk then
      (true,
       Function.update sts ⟨idx, h⟩
         { sts ⟨idx, h⟩ with
           current_angle := angle
           striking := true
           return_time := (now + cfg.strike_duration_ms * 1000) % 2 ^ 32 },
       [(idx, angle)])
    else
      (false, sts, [(idx, angle)])
  else
    (false, sts, [])

/-- From i2c_pca9685_midi.c `pca9685_midi_process_message`: channel filter
(`status & 0x0F` compared with `config.midi_channel`), note-on dispatch to
`pca9685_midi_strike_servo`, and the note-off path, which commands the
rest angle, ignores the write result, updates the state and returns true.
(The C note-off path indexes `servo_states[servo_index]` without a bounds
check; `note_to_servo` only guarantees `servo_index < note_range`, and
`note_range ≤ 16` is enforced at init, so the guarded update below is
exercised exactly on the C-reachable inputs.) -/
def pca9685_midi_process_message (cfg : PcaConfig) (ioWriteOk : Bool) (now : Nat)
    (sts : ServoStates) (status note velocity : Nat) : Bool × ServoStates × List (Nat × Nat) :=
  let message_type := status &&& 0xF0
  let channel := status &&& 0x0F
  if channel ≠ cfg.midi_channel then
    (false, sts, [])
  else if message_type = 0x90 ∧ 0 < velocity then
    match pca9685_midi_note_to_servo cfg note with
    | none => (false, sts, [])
    | some idx => pca9685_midi_strike_servo cfg ioWriteOk now sts idx
  else if message_type = 0x80 ∨ (message_type = 0x90 ∧ velocity = 0) then
    match pca9685_midi_note_to_servo cfg note with
    | none => (false, sts, [])
    | some idx =>
      (true,
       if h : idx < 16 then
         Function.update sts ⟨idx, h⟩
           { sts ⟨idx, h⟩ with
             current_angle := cfg.rest_angle
             striking := false
             return_time := 0 }
       else
         sts,
       [(idx, cfg.rest_angle)])
  else
    (false, sts, [])

/-- Per-entry body of the `pca9685_midi_update` scan:
`if (striking && return_time > 0) { if (current_time >= return_time)
{ set rest angle; update state; } }`.  The boolean reports whether the
rest command fired for this entry (the write result is ignored by the C
code). -/
def pca9685_update_entry (cfg : PcaConfig) (now : Nat) (st : ServoState) : ServoState × Bool :=
  if st.striking ∧ 0 < st.return_time ∧ st.return_time ≤ now then
    ({ st with current_angle := cfg.rest_angle, striking := false, return_time := 0 }, true)
  else
    (st, false)

/-- From i2c_pca9685_midi.c `pca9685_midi_update`: scans all 16 servo
states against the current time, issuing a rest-angle command for every
striking entry whose nonzero return time has elapsed.  Result is the new
state array and the list of issued `(index, rest_angle)` commands. -/
def pca9685_midi_update (cfg : PcaConfig) (now : Nat) (sts : ServoStates) :
    ServoStates × List (Nat × Nat) :=
  (fun i => (pca9685_update_entry cfg now (sts i)).1,
   ((List.finRange 16).filter (fun i => (pca9685_update_entry cfg now (sts i)).2)).map
     (fun i => (i.val, cfg.rest_angle)))

/-- One shift/xor step of configuration_settings.c `calculate_crc16`:
`if (crc & 0x0001) crc = (crc >> 1) ^ 0xA001; else crc >>= 1;`. -/
def crc16_round (crc : Nat) : Nat :=
  if crc % 2 = 1 then
    (crc / 2) ^^^ 0xA001
  else
    crc / 2

/-- The inner `for (j = 0; j < 8; j++)` loop of `calculate_crc16`. -/
def crc16_rounds : Nat → Nat → Nat
  | 0, crc => crc
  | j + 1, crc => crc16_rounds j (crc16_round crc)

/-- Per-byte step of `calculate_crc16`: `crc ^= data[i];` followed by the
eight shift/xor rounds. -/
def crc16_update (crc b : Nat) : Nat :=
  crc16_rounds 8 (crc ^^^ b)

/-- From configuration_settings.c `calculate_crc16`: CRC-16 with
polynomial 0xA001 (reflected), initial value 0xFFFF, over a byte list. -/
def calculate_crc16 (data : List Nat) : Nat :=
  data.foldl crc16_update 0xFFFF

/-- Byte accessor on a stored record image (counterpart of reading a
field of the packed 33-byte `config_settings_t`). -/
def byteAt (s : List Nat) (i : Nat) : Nat :=
  s.getD i 0

/-- Little-endian `uint16_t` field at offset i of a record image. -/
def u16At (s : List Nat) (i : Nat) : Nat :=
  byteAt s i + 256 * byteAt s (i + 1)

/-- Little-endian `uint32_t` field at offset i of a record image. -/
def u32At (s : List Nat) (i : Nat) : Nat :=
  byteAt s i + 256 * byteAt s (i + 1) + 65536 * byteAt s (i + 2) +
    16777216 * byteAt s (i + 3)

/-- Byte layout of the packed `config_settings_t` (33 bytes): magic at
0-3 (little endian), version 4, midi_channel 5, note_range 6, low_note 7,
semitone_mode 8, player_type 9, io_expander_type 10, io_expander_address
11, display_enabled 12, display_brightness 13, display_timeout 14,
reserved 15-30, crc at 31-32 (little endian).  The CRC covers bytes 0-30
(`sizeof(config_settings_t) - sizeof(crc)`). -/
def CONFIG_RECORD_SIZE : Nat := 33

/-- From configuration_settings.c `config_validate` on a stored record
image: magic check (`CONFIG_MAGIC_NUMBER 0x4D53594E`), CRC check over the
first 31 bytes against the stored CRC, then the range checks
`midi_channel ∈ [1,16]`, `note_range ∈ [1,16]`, `low_note ≤ 127`,
`semitone_mode ≤ 2`.  The version byte is only compared for a warning and
does not affect the result. -/
def config_validate (s : List Nat) : Bool :=
  (u32At s 0 = 0x4D53594E) &&
  (calculate_crc16 (s.take 31) = u16At s 31) &&
  (1 ≤ byteAt s 5 && byteAt s 5 ≤ 16) &&
  (1 ≤ byteAt s 6 && byteAt s 6 ≤ 16) &&
  (byteAt s 7 ≤ 127) &&
  (byteAt s 8 ≤ 2)

/-- The first 31 bytes written by configuration_settings.c
`config_load_defaults`: magic "MSYN" (0x4D53594E little endian), version
1, channel 10, note_range 8, low_note 60 (middle C), semitone_mode 0
(PLAY), player_type 0, io type 0 (PCF8574), io address 0x20, display
enabled, brightness 128, timeout 30, sixteen reserved zero bytes. -/
def config_defaults_body : List Nat :=
  [0x4E, 0x59, 0x53, 0x4D, 1, 10, 8, 60, 0, 0, 0, 0x20, 1, 128, 30] ++
    List.replicate 16 0

/-- Record image produced by `config_load_defaults` (body plus the CRC it
computes over the body). -/
def config_defaults : List Nat :=
  config_defaults_body ++
    [calculate_crc16 config_defaults_body % 256, calculate_crc16 config_defaults_body / 256]

/-- From configuration_settings.c `config_save`: recomputes the CRC over
the first 31 bytes of the in-memory record and writes the full record.
This is the byte image handed to the EEPROM write. -/
def config_save_image (s : List Nat) : List Nat :=
  s.take 31 ++ [calculate_crc16 (s.take 31) % 256, calculate_crc16 (s.take 31) / 256]

/-- Outcome of `config_load`: the in-memory settings record, the record
image written back to the EEPROM (none when nothing was persisted), and
the returned flag. -/
structure LoadResult where
  settings : List Nat
  persisted : Option (List Nat)
  ok : Bool
deriving DecidableEq, Repr

/-- From configuration_settings.c `config_load`: reads the record
(`readResult` is `none` when `at24cxx_read` fails), validates it, and on
any failure falls back to `config_load_defaults` followed by
`config_save` (whose EEPROM write outcome is `writeOk`). -/
def config_load (readResult : Option (List Nat)) (writeOk : Bool) : LoadResult :=
  match readResult with
  | some bs =>
    if config_validate bs then
      { settings := bs, persisted := none, ok := true }
    else
      { settings := config_defaults, persisted := some (config_save_image config_defaults),
        ok := writeOk }
  | none =>
    { settings := config_defaults, persisted := some (config_save_image config_defaults),
      ok := writeOk }

lemma crc16_round_lt (c : Nat) (h : c < 65536) : crc16_round c < 65536 := by
  unfold crc16_round
  by_cases h2 : c % 2 = 1
  · rw [if_pos h2]
    have h3 : c / 2 < 2 ^ 16 := by omega
    have h4 : (0xA001 : Nat) < 2 ^ 16 := by norm_num
    have := Nat.xor_lt_two_pow h3 h4
    omega
  · rw [if_neg h2]
    omega

lemma crc16_round_inj (c1 c2 : Nat) (h1 : c1 < 65536) (h2 : c2 < 65536)
    (h : crc16_round c1 = crc16_round c2) : c1 = c2 := by
  unfold crc16_round at h
  by_cases p1 : c1 % 2 = 1 <;> by_cases p2 : c2 % 2 = 1
  · rw [if_pos p1, if_pos p2] at h
    have := Nat.xor_left_injective h
    omega
  · rw [if_pos p1, if_neg p2] at h
    exfalso
    have hA : (0xA001 : Nat) = c1 / 2 ^^^ c2 / 2 := by
      rw [← h, Nat.xor_cancel_left]
    have hx1 : c1 / 2 < 2 ^ 15 := by omega
    have hx2 : c2 / 2 < 2 ^ 15 := by omega
    have := Nat.xor_lt_two_pow hx1 hx2
    rw [← hA] at this
    norm_num at this
  · rw [if_neg p1, if_pos p2] at h
    exfalso
    have hA : (0xA001 : Nat) = c2 / 2 ^^^ c1 / 2 := by
      rw [h, Nat.xor_cancel_left]
    have hx1 : c1 / 2 < 2 ^ 15 := by omega
    have hx2 : c2 / 2 < 2 ^ 15 := by omega
    have := Nat.xor_lt_two_pow hx2 hx1
    rw [← hA] at this
    norm_num at this
  · rw [if_neg p1, if_neg p2] at h
    omega

lemma crc16_rounds_lt (j : Nat) : ∀ c, c < 65536 → crc16_rounds j c < 65536 := by
  induction j with
  | zero => intro c hc; simpa [crc16_rounds] using hc
  | succ j ih =>
    intro c hc
    simp only [crc16_rounds]
    exact ih _ (crc16_round_lt c hc)

lemma crc16_rounds_inj (j : Nat) : ∀ c1 c2, c1 < 65536 → c2 < 65536 →
    crc16_rounds j c1 = crc16_rounds j c2 → c1 = c2 := by
  induction j with
  | zero => intro c1 c2 _ _ h; simpa [crc16_rounds] using h
  | succ j ih =>
    intro c1 c2 h1 h2 h
    simp only [crc16_rounds] at h
    exact crc16_round_inj c1 c2 h1 h2
      (ih _ _ (crc16_round_lt c1 h1) (crc16_round_lt c2 h2) h)

lemma crc16_update_lt (c b : Nat) (hc : c < 65536) (hb : b < 256) :
    crc16_update c b < 65536 := by
  unfold crc16_update
  apply crc16_rounds_lt
  have h1 : c < 2 ^ 16 := by omega
  have h2 : b < 2 ^ 16 := by omega
  have := Nat.xor_lt_two_pow h1 h2
  omega

lemma crc16_update_inj_state (c1 c2 b : Nat) (h1 : c1 < 65536) (h2 : c2 < 65536)
    (hb : b < 256) (h : crc16_update c1 b = crc16_update c2 b) : c1 = c2 := by
  unfold crc16_update at h
  have hx1 : c1 ^^^ b < 65536 := by
    have := Nat.xor_lt_two_pow (show c1 < 2 ^ 16 by omega) (show b < 2 ^ 16 by omega)
    omega
  have hx2 : c2 ^^^ b < 65536 := by
    have := Nat.xor_lt_two_pow (show c2 < 2 ^ 16 by omega) (show b < 2 ^ 16 by omega)
    omega
  have := crc16_rounds_inj 8 _ _ hx1 hx2 h
  exact Nat.xor_left_injective this

lemma crc16_update_inj_byte (c b1 b2 : Nat) (hc : c < 65536) (hb1 : b1 < 256) (hb2 : b2 < 256)
    (hne : b1 ≠ b2) : crc16_update c b1 ≠ crc16_update c b2 := by
  intro h
  unfold crc16_update at h
  have hx1 : c ^^^ b1 < 65536 := by
    have := Nat.xor_lt_two_pow (show c < 2 ^ 16 by omega) (show b1 < 2 ^ 16 by omega)
    omega
  have hx2 : c ^^^ b2 < 65536 := by
    have := Nat.xor_lt_two_pow (show c < 2 ^ 16 by omega) (show b2 < 2 ^ 16 by omega)
    omega
  have := crc16_rounds_inj 8 _ _ hx1 hx2 h
  exact hne (Nat.xor_right_injective this)

lemma foldl_crc16_update_lt (l : List Nat) : ∀ c, c < 65536 → (∀ x ∈ l, x < 256) →
    l.foldl crc16_update c < 65536 := by
  induction l with
  | nil => intro c hc _; simpa using hc
  | cons x xs ih =>
    intro c hc hb
    rw [List.foldl_cons]
    exact ih _ (crc16_update_lt c x hc (hb x (by simp))) (fun y hy => hb y (by simp [hy]))

lemma foldl_crc16_update_inj (l : List Nat) : ∀ c1 c2, c1 < 65536 → c2 < 65536 →
    (∀ x ∈ l, x < 256) → c1 ≠ c2 → l.foldl crc16_update c1 ≠ l.foldl crc16_update c2 := by
  induction l with
  | nil => intro c1 c2 _ _ _ hne; simpa using hne
  | cons x xs ih =>
    intro c1 c2 h1 h2 hb hne
    rw [List.foldl_cons, List.foldl_cons]
    have hx : x < 256 := hb x (by simp)
    refine ih _ _ (crc16_update_lt c1 x h1 hx) (crc16_update_lt c2 x h2 hx)
      (fun y hy => hb y (by simp [hy])) ?_
    intro h
    exact hne (crc16_update_inj_state c1 c2 x h1 h2 hx h)

/-- Changing any single byte of the message changes its CRC-16 (the CRC
step is a bijection of the 16-bit state for each input byte, so a
difference introduced at one position survives to the end). -/
lemma calculate_crc16_set_ne (l : List Nat) (hl : ∀ x ∈ l, x < 256) (i : Nat)
    (hi : i < l.length) (b : Nat) (hb : b < 256) (hne : b ≠ l.getD i 0) :
    calculate_crc16 (l.set i b) ≠ calculate_crc16 l := by
  have hset : l.set i b = l.take i ++ b :: l.drop (i + 1) := by
    rw [List.set_eq_take_append_cons_drop, if_pos hi]
  have hsplit : l = l.take i ++ l[i] :: l.drop (i + 1) := by
    conv_lhs => rw [← List.take_append_drop i l]
    rw [List.drop_eq_getElem_cons hi]
  have hgetD : l.getD i 0 = l[i] := List.getD_eq_getElem l 0 hi
  unfold calculate_crc16
  rw [hset]
  conv_rhs => rw [hsplit]
  rw [List.foldl_append, List.foldl_append, List.foldl_cons, List.foldl_cons]
  have htakeb : ∀ x ∈ l.take i, x < 256 := fun x hx => hl x (List.mem_of_mem_take hx)
  have hdropb : ∀ x ∈ l.drop (i + 1), x < 256 := fun x hx => hl x (List.mem_of_mem_drop hx)
  set s0 := (l.take i).foldl crc16_update 0xFFFF with hs0def
  have hs0' : s0 < 65536 := by
    have := foldl_crc16_update_lt (l.take i) 0xFFFF (by norm_num) htakeb
    simpa [hs0def] using this
  have hib : l[i] < 256 := hl _ (List.getElem_mem hi)
  apply foldl_crc16_update_inj (l.drop (i + 1)) _ _
    (crc16_update_lt s0 b hs0' hb) (crc16_update_lt s0 l[i] hs0' hib) hdropb
  exact crc16_update_inj_byte s0 b l[i] hs0' hb hib (by rw [hgetD] at hne; exact hne)

lemma take_set_comm {α : Type} (l : List α) : ∀ (i n : Nat) (a : α), i < n →
    (l.set i a).take n = (l.take n).set i a := by
  induction l with
  | nil => intro i n a _; simp
  | cons x xs ih =>
    intro i n a hin
    cases i with
    | zero =>
      cases n with
      | zero => omega
      | succ n => simp
    | succ i =>
      cases n with
      | zero => omega
      | succ n =>
        simp only [List.set_cons_succ, List.take_succ_cons]
        rw [ih i n a (by omega)]

lemma take_set_of_le {α : Type} (l : List α) : ∀ (i n : Nat) (a : α), n ≤ i →
    (l.set i a).take n = l.take n := by
  induction l with
  | nil => intro i n a _; simp
  | cons x xs ih =>
    intro i n a hni
    cases i with
    | zero =>
      cases n with
      | zero => simp
      | succ n => omega
    | succ i =>
      cases n with
      | zero => simp
      | succ n =>
        simp only [List.set_cons_succ, List.take_succ_cons]
        rw [ih i n a (by omega)]

lemma byteAt_set_ne (s : List Nat) (i j b : Nat) (h : i ≠ j) :
    byteAt (s.set i b) j = byteAt s j := by
  unfold byteAt
  rw [List.getD_eq_getElem?_getD, List.getD_eq_getElem?_getD, List.getElem?_set_ne h]

lemma byteAt_set_self (s : List Nat) (i b : Nat) (h : i < s.length) :
    byteAt (s.set i b) i = b := by
  unfold byteAt
  rw [List.getD_eq_getElem?_getD, List.getElem?_set_self h]
  rfl

lemma byteAt_lt (s : List Nat) (hb : ∀ x ∈ s, x < 256) (i : Nat) (h : i < s.length) :
    byteAt s i < 256 := by
  unfold byteAt
  rw [List.getD_eq_getElem s 0 h]
  exact hb _ (List.getElem_mem h)

lemma byteAt_take (s : List Nat) (i n : Nat) (h : i < n) :
    byteAt (s.take n) i = byteAt s i := by
  unfold byteAt
  rw [List.getD_eq_getElem?_getD, List.getD_eq_getElem?_getD, List.getElem?_take, if_pos h]

/-- Flipping any single byte of a record image that passes
`config_validate` makes validation fail: a flip in the magic bytes breaks
the magic check, a flip in bytes 4-30 changes the computed CRC away from
the stored one, and a flip in the stored CRC bytes moves it away from the
computed one. -/
lemma config_validate_set_false (bs : List Nat) (hv : config_validate bs = true)
    (hlen : bs.length = 33) (hbytes : ∀ x ∈ bs, x < 256) (i : Nat) (hi : i < 33)
    (b : Nat) (hb : b < 256) (hne : b ≠ byteAt bs i) :
    config_validate (bs.set i b) = false := by
  simp only [config_validate, Bool.and_eq_true, decide_eq_true_eq] at hv
  obtain ⟨⟨⟨⟨⟨hmagic, hcrc⟩, hch⟩, hnr⟩, hlow⟩, hmode⟩ := hv
  have hblt : ∀ j, j < 33 → byteAt bs j < 256 := fun j hj => byteAt_lt bs hbytes j (by omega)
  have hlen' : (bs.set i b).length = 33 := by
    rw [List.length_set, hlen]
  rcases Nat.lt_or_ge i 4 with h4 | h4
  · -- a magic byte changed
    have hmagic' : ¬ u32At (bs.set i b) 0 = 0x4D53594E := by
      have e0 := hblt 0 (by omega)
      have e1 := hblt 1 (by omega)
      have e2 := hblt 2 (by omega)
      have e3 := hblt 3 (by omega)
      unfold u32At at hmagic ⊢
      norm_num at hmagic ⊢
      interval_cases i
      · rw [byteAt_set_self bs 0 b (by omega), byteAt_set_ne bs 0 1 b (by omega),
          byteAt_set_ne bs 0 2 b (by omega), byteAt_set_ne bs 0 3 b (by omega)]
        omega
      · rw [byteAt_set_ne bs 1 0 b (by omega), byteAt_set_self bs 1 b (by omega),
          byteAt_set_ne bs 1 2 b (by omega), byteAt_set_ne bs 1 3 b (by omega)]
        omega
      · rw [byteAt_set_ne bs 2 0 b (by omega), byteAt_set_ne bs 2 1 b (by omega),
          byteAt_set_self bs 2 b (by omega), byteAt_set_ne bs 2 3 b (by omega)]
        omega
      · rw [byteAt_set_ne bs 3 0 b (by omega), byteAt_set_ne bs 3 1 b (by omega),
          byteAt_set_ne bs 3 2 b (by omega), byteAt_set_self bs 3 b (by omega)]
        omega
    simp only [config_validate]
    rw [decide_eq_false hmagic']
    simp
  · rcases Nat.lt_or_ge i 31 with h31 | h31
    · -- a CRC-covered non-magic byte changed: the computed CRC moves
      have htake : (bs.set i b).take 31 = (bs.take 31).set i b := take_set_comm bs i 31 b h31
      have htlen : (bs.take 31).length = 31 := by
        rw [List.length_take, hlen]
        norm_num
      have htbytes : ∀ x ∈ bs.take 31, x < 256 := fun x hx => hbytes x (List.mem_of_mem_take hx)
      have hold : (bs.take 31).getD i 0 = byteAt bs i := byteAt_take bs i 31 h31
      have hcrcne : calculate_crc16 ((bs.take 31).set i b) ≠ calculate_crc16 (bs.take 31) := by
        apply calculate_crc16_set_ne (bs.take 31) htbytes i (by omega) b hb
        rw [hold]
        exact hne
      have hstored : u16At (bs.set i b) 31 = u16At bs 31 := by
        unfold u16At
        rw [byteAt_set_ne bs i 31 b (by omega), byteAt_set_ne bs i 32 b (by omega)]
      have hcrc' : ¬ calculate_crc16 ((bs.set i b).take 31) = u16At (bs.set i b) 31 := by
        rw [htake, hstored, ← hcrc]
        exact hcrcne
      simp only [config_validate]
      rw [decide_eq_false hcrc']
      simp
    · -- a stored CRC byte changed: the stored CRC moves
      have htake : (bs.set i b).take 31 = bs.take 31 := take_set_of_le bs i 31 b h31
      have hstored : ¬ u16At (bs.set i b) 31 = u16At bs 31 := by
        have e31 := hblt 31 (by omega)
        have e32 := hblt 32 (by omega)
        unfold u16At
        norm_num
        interval_cases i
        · rw [byteAt_set_self bs 31 b (by omega), byteAt_set_ne bs 31 32 b (by omega)]
          omega
        · rw [byteAt_set_ne bs 32 31 b (by omega), byteAt_set_self bs 32 b (by omega)]
          omega
      have hcrc' : ¬ calculate_crc16 ((bs.set i b).take 31) = u16At (bs.set i b) 31 := by
        rw [htake, hcrc]
        intro h
        exact hstored h.symm
      simp only [config_validate]
      rw [decide_eq_false hcrc']
      simp

/-- Shared concrete servo backend configuration for witnesses: MIDI
channel 9 (0-based), 8 notes from 60, PLAY mode, simple strike mode, rest
angle 90, strike angle 45, strike duration 50 ms. -/
def demoServoConfig : PcaConfig :=
  ⟨9, 8, 60, 67, SemitoneMode.play, true, 90, 45, 50, 0, 180⟩

/-- Shared all-idle servo state array (every servo at the rest angle). -/
def idleServoStates : ServoStates :=
  fun _ => ⟨0, 90, false, 0⟩

/-- C6: with policy channel=10, low_note=60, note_count=8, mode=Play
(high_note derived as 67), a Note-On (status 0x99, channel 10) for note
60 at velocity 100 is accepted as NoteOn on output index 0, note 67 maps
to index 7, and note 68 is rejected as outside the [60, 67] window. -/
theorem C6_scenario_A :
    i2c_midi_route ⟨10, 8, 60, i2c_calculate_high_note 60 8 SemitoneMode.play,
      SemitoneMode.play⟩ 8 0x99 60 100 = RouteResult.noteOn 0 ∧
    i2c_midi_route ⟨10, 8, 60, i2c_calculate_high_note 60 8 SemitoneMode.play,
      SemitoneMode.play⟩ 8 0x99 67 100 = RouteResult.noteOn 7 ∧
    i2c_midi_route ⟨10, 8, 60, i2c_calculate_high_note 60 8 SemitoneMode.play,
      SemitoneMode.play⟩ 8 0x99 68 100 = RouteResult.rejected := by
  decide

/-- C1: the router always rejects note events whose channel differs from
the stored policy channel, and `midi_handler_set_channel` accepts the
all-channels sentinel 0xFF — but the router has no sentinel handling:
with `midi_channel = 0xFF`, the comparison `(status & 0x0F) + 1 ≠ 0xFF`
is true for every one of the 16 channels, so EVERY note event (Note-On
and Note-Off alike) is rejected on channel grounds, the opposite of the
documented all-channels behavior. -/
theorem C1_sentinel_rejects_everything :
    (∀ (cfg : I2cMidiConfig) (maxPins status note velocity : Nat),
      (status &&& 0x0F) + 1 ≠ cfg.midi_channel →
      i2c_midi_route cfg maxPins status note velocity = RouteResult.rejected) ∧
    midi_handler_set_channel 10 0xFF = (true, 0xFF) ∧
    (∀ c, c < 16 →
      i2c_midi_route ⟨0xFF, 8, 60, 67, SemitoneMode.play⟩ 8 (0x90 + c) 60 100 =
        RouteResult.rejected) ∧
    (∀ c, c < 16 →
      i2c_midi_route ⟨0xFF, 8, 60, 67, SemitoneMode.play⟩ 8 (0x80 + c) 60 0 =
        RouteResult.rejected) := by
  refine ⟨?_, by decide, by decide, by decide⟩
  intro cfg maxPins status note velocity h
  unfold i2c_midi_route i2c_midi_accepted_pin
  rw [if_pos h]

/-- Witness for C1: channel 9 traffic is rejected when the policy
channel is 10, and with the accepted 0xFF sentinel stored, a Note-On on
channel 10 for an in-window note is rejected as well. -/
theorem C1_sentinel_rejects_everything_witness :
    i2c_midi_route ⟨10, 8, 60, 67, SemitoneMode.play⟩ 8 0x98 60 100 = RouteResult.rejected ∧
    i2c_midi_route ⟨0xFF, 8, 60, 67, SemitoneMode.play⟩ 8 (0x90 + 9) 60 100 =
      RouteResult.rejected :=
  ⟨C1_sentinel_rejects_everything.1 ⟨10, 8, 60, 67, SemitoneMode.play⟩ 8 0x98 60 100
      (by decide),
   C1_sentinel_rejects_everything.2.2.1 9 (by norm_num)⟩

/-- C7: for an accepted note, a Note-On with velocity 0 is processed
exactly like a Note-Off of the same note on the same channel — same
routing decision, same dispatcher call, same resulting channel state —
both in the pin-bank backend and in the servo backend. -/
theorem C7_velocity_zero_equals_note_off
    (cfg : I2cMidiConfig) (maxPins : Nat) (ioWriteOk : Bool) (pinState : Nat)
    (pcfg : PcaConfig) (ioWriteOk2 : Bool) (now : Nat) (sts : ServoStates)
    (c note velOff : Nat) (hc : c ≤ 15)
    (hacc : i2c_midi_route cfg maxPins (0x90 + c) note 0 ≠ RouteResult.rejected) :
    i2c_midi_process_message cfg maxPins ioWriteOk pinState (0x90 + c) note 0 =
      i2c_midi_process_message cfg maxPins ioWriteOk pinState (0x80 + c) note velOff ∧
    pca9685_midi_process_message pcfg ioWriteOk2 now sts (0x90 + c) note 0 =
      pca9685_midi_process_message pcfg ioWriteOk2 now sts (0x80 + c) note velOff := by
  interval_cases c <;> exact ⟨rfl, rfl⟩

/-- Witness for C7 at the Scenario-A policy, note 60 on channel 10. -/
theorem C7_velocity_zero_equals_note_off_witness :
    i2c_midi_route ⟨10, 8, 60, 67, SemitoneMode.play⟩ 8 (0x90 + 9) 60 0 ≠
      RouteResult.rejected ∧
    (i2c_midi_process_message ⟨10, 8, 60, 67, SemitoneMode.play⟩ 8 true 0 (0x90 + 9) 60 0 =
      i2c_midi_process_message ⟨10, 8, 60, 67, SemitoneMode.play⟩ 8 true 0 (0x80 + 9) 60 64 ∧
    pca9685_midi_process_message demoServoConfig true 0 idleServoStates (0x90 + 9) 60 0 =
      pca9685_midi_process_message demoServoConfig true 0 idleServoStates (0x80 + 9) 60 64) :=
  ⟨by decide,
   C7_velocity_zero_equals_note_off ⟨10, 8, 60, 67, SemitoneMode.play⟩ 8 true 0
     demoServoConfig true 0 idleServoStates 9 60 64 (by norm_num) (by decide)⟩

/-- C9: when the computed output index reaches the backend capacity, the
event is rejected with a failure result before any backend write or
channel-state update, in both backends (the pin bank checks the pin
against `io_get_max_pins`; the servo backend checks the index against
`note_range` inside `note_to_servo`). -/
theorem C9_capacity_rejection :
    (∀ (cfg : I2cMidiConfig) (maxPins : Nat) (ioWriteOk : Bool)
      (pinState status note velocity pin : Nat),
      i2c_midi_accepted_pin cfg status note = some pin → maxPins ≤ pin →
      i2c_midi_route cfg maxPins status note velocity = RouteResult.rejected ∧
      i2c_midi_process_message cfg maxPins ioWriteOk pinState status note velocity =
        (false, pinState, [])) ∧
    (∀ (cfg : PcaConfig) (ioWriteOk : Bool) (now : Nat) (sts : ServoStates)
      (status note velocity idx : Nat),
      pca9685_midi_computed_index cfg note = some idx → cfg.note_range ≤ idx →
      pca9685_midi_note_to_servo cfg note = none ∧
      pca9685_midi_process_message cfg ioWriteOk now sts status note velocity =
        (false, sts, [])) := by
  constructor
  · intro cfg maxPins ioWriteOk pinState status note velocity pin h hcap
    have hroute : i2c_midi_route cfg maxPins status note velocity = RouteResult.rejected := by
      simp only [i2c_midi_route, h]
      rw [if_pos hcap]
    refine ⟨hroute, ?_⟩
    unfold i2c_midi_process_message
    rw [hroute]
  · intro cfg ioWriteOk now sts status note velocity idx h hcap
    have hns : pca9685_midi_note_to_servo cfg note = none := by
      simp only [pca9685_midi_note_to_servo, h]
      rw [if_pos hcap]
    refine ⟨hns, ?_⟩
    unfold pca9685_midi_process_message
    simp only [hns]
    split_ifs <;> rfl

/-- Witness for C9: with only 2 pins of capacity, the accepted note 65
computes pin 5 and is rejected without a write; with `note_range = 3`
the servo index 5 is likewise rejected. -/
theorem C9_capacity_rejection_witness :
    (i2c_midi_accepted_pin ⟨10, 8, 60, 67, SemitoneMode.play⟩ 0x99 65 = some 5 ∧
     i2c_midi_process_message ⟨10, 8, 60, 67, SemitoneMode.play⟩ 2 true 0 0x99 65 100 =
       (false, 0, [])) ∧
    (pca9685_midi_computed_index ⟨9, 3, 60, 67, SemitoneMode.play, true, 90, 45, 50, 0, 180⟩
       65 = some 5 ∧
     pca9685_midi_process_message ⟨9, 3, 60, 67, SemitoneMode.play, true, 90, 45, 50, 0, 180⟩
       true 0 idleServoStates 0x99 65 100 = (false, idleServoStates, [])) :=
  ⟨⟨by decide,
    (C9_capacity_rejection.1 ⟨10, 8, 60, 67, SemitoneMode.play⟩ 2 true 0 0x99 65 100 5
      (by decide) (by norm_num)).2⟩,
   ⟨by decide,
    (C9_capacity_rejection.2 ⟨9, 3, 60, 67, SemitoneMode.play, true, 90, 45, 50, 0, 180⟩
      true 0 idleServoStates 0x99 65 100 5 (by decide) (by norm_num)).2⟩⟩

/-- Counterexample to C2: with a failing backend (the expander write
returns false), commanding pin 0 on from an all-off bank returns false
but leaves `pin_state = 0x01`, not the prior `0x00` — the C code sets the
bit before attempting the write and never rolls it back. -/
theorem C2_counterexample :
    i2c_midi_set_pin 8 false 0 0 true = (false, 1, [(0, true)]) ∧ (1 : Nat) ≠ 0 := by
  decide

/-- C2 as amended: on a backend write failure, only the servo strike
path returns false AND leaves the channel state unchanged; the pin-bank
path returns false but has already stored the commanded bit in
`pin_state`; and the servo note-off path ignores the write result
entirely, returning true and setting the channel state to rest. -/
theorem C2_amended :
    (∀ (maxPins pinState pin : Nat) (command : Bool), pin < maxPins →
      i2c_midi_set_pin maxPins false pinState pin command =
        (false,
         if command then (pinState ||| 2 ^ pin) % 256
         else pinState &&& (255 ^^^ (2 ^ pin % 256)),
         [(pin, command)])) ∧
    (∀ (cfg : PcaConfig) (now : Nat) (sts : ServoStates) (idx : Nat), idx < 16 →
      pca9685_midi_strike_servo cfg false now sts idx =
        (false, sts, [(idx, pca9685_strike_angle_of cfg idx)])) ∧
    (∀ (cfg : PcaConfig) (now : Nat) (sts : ServoStates) (status note velocity idx : Nat),
      status &&& 0x0F = cfg.midi_channel → status &&& 0xF0 = 0x80 →
      pca9685_midi_note_to_servo cfg note = some idx →
      pca9685_midi_process_message cfg false now sts status note velocity =
        (true,
         if h : idx < 16 then
           Function.update sts ⟨idx, h⟩
             { sts ⟨idx, h⟩ with
               current_angle := cfg.rest_angle
               striking := false
               return_time := 0 }
         else
           sts,
         [(idx, cfg.rest_angle)])) := by
  refine ⟨?_, ?_, ?_⟩
  · intro maxPins pinState pin command hlt
    unfold i2c_midi_set_pin
    rw [if_neg (by omega)]
  · intro cfg now sts idx hlt
    unfold pca9685_midi_strike_servo
    rw [dif_pos hlt]
    rfl
  · intro cfg now sts status note velocity idx hch htype hns
    unfold pca9685_midi_process_message
    rw [htype, hch]
    rw [if_neg (by simp), if_neg (by norm_num), if_pos (by norm_num : (0x80 : Nat) = 0x80 ∨ ((0x80 : Nat) = 0x90 ∧ velocity = 0)), hns]

/-- Witness for C2 as amended: a failed pin-bank write that keeps the
new bit, a failed strike that keeps the old state, and a servo note-off
with a failing backend that still reports success and moves the state to
rest. -/
theorem C2_amended_witness :
    i2c_midi_set_pin 8 false 0 0 true = (false, (if True then (0 ||| 2 ^ 0) % 256 else 0 &&& (255 ^^^ (2 ^ 0 % 256))), [(0, true)]) ∧
    pca9685_midi_strike_servo demoServoConfig false 0 idleServoStates 3 =
      (false, idleServoStates, [(3, pca9685_strike_angle_of demoServoConfig 3)]) ∧
    pca9685_midi_process_message demoServoConfig false 0 idleServoStates 0x89 60 0 =
      (true,
       if h : (0 : Nat) < 16 then
         Function.update idleServoStates ⟨0, h⟩
           { idleServoStates ⟨0, h⟩ with
             current_angle := demoServoConfig.rest_angle
             striking := false
             return_time := 0 }
       else
         idleServoStates,
       [(0, demoServoConfig.rest_angle)]) := by
  refine ⟨?_, ?_, ?_⟩
  · have h := C2_amended.1 8 0 0 true (by norm_num)
    simpa using h
  · exact C2_amended.2.1 demoServoConfig 0 idleServoStates 3 (by norm_num)
  · exact C2_amended.2.2 demoServoConfig 0 idleServoStates 0x89 60 0 0 (by decide) (by decide)
      (by decide)

/-- C4: in IGNORE and SKIP modes, away from the 127 boundary, both the
i2c_midi and the pca9685 `calculate_high_note` return the smallest note
at or above `low_note` such that exactly `note_count` non-semitone notes
lie in `[low_note, high_note]`; in particular low_note=60, note_count=4,
SKIP yields 65 (sequence 60, 62, 64, 65). -/
theorem C4_high_note_smallest_window :
    (∀ (low range : Nat) (mode : SemitoneMode), mode ≠ SemitoneMode.play →
      1 ≤ range → range ≤ 16 → low + 2 * range ≤ 127 →
      low ≤ i2c_calculate_high_note low range mode ∧
      countNS low (i2c_calculate_high_note low range mode) = range ∧
      (∀ k, low ≤ k → countNS low k = range → i2c_calculate_high_note low range mode ≤ k) ∧
      pca_calculate_high_note low range mode = i2c_calculate_high_note low range mode) ∧
    i2c_calculate_high_note 60 4 SemitoneMode.skip = 65 ∧
    pca_calculate_high_note 60 4 SemitoneMode.skip = 65 := by
  refine ⟨?_, by decide, by decide⟩
  intro low range mode hm h1 h16 hbound
  have hsuf : range ≤ countNS low 127 := by
    have hd := countNS_density low range
    have hmono := countNS_mono low (low + 2 * range) 127 (by omega)
    omega
  have hi2c := i2cHighLoop_correct 127 0 range low (by omega) (by omega)
    (by simpa using hsuf) (by omega)
  have hpca := pcaHighLoop_correct (2 * range) 0 range low (by omega) (by omega)
    (by simpa using hsuf)
    (by
      have hb : (if is_semitone low then (1 : Nat) else 0) ≤ 1 := by
        cases h : is_semitone low <;> simp
      omega)
  rw [Nat.sub_zero] at hi2c hpca
  obtain ⟨ha1, ha2, ha3⟩ := hi2c
  obtain ⟨hb1, hb2, hb3⟩ := hpca
  have ei2c : i2c_calculate_high_note low range mode = i2cHighLoop 127 range 0 low := by
    unfold i2c_calculate_high_note
    rw [if_neg hm]
  have epca : pca_calculate_high_note low range mode = pcaHighLoop (2 * range) range 0 low := by
    unfold pca_calculate_high_note
    rw [if_neg hm]
  rw [ei2c, epca]
  have hmin_i2c := countNS_minimal low (i2cHighLoop 127 range 0 low) range h1 ha1 ha2 ha3
  have hmin_pca := countNS_minimal low (pcaHighLoop (2 * range) range 0 low) range h1 hb1 hb2 hb3
  refine ⟨ha1, ha2, hmin_i2c, ?_⟩
  exact Nat.le_antisymm (hmin_pca _ ha1 ha2) (hmin_i2c _ hb1 hb2)

/-- Witness for C4 at low_note=60, note_count=4, SKIP. -/
theorem C4_high_note_smallest_window_witness :
    (60 + 2 * 4 ≤ 127) ∧
    (60 ≤ i2c_calculate_high_note 60 4 SemitoneMode.skip ∧
     countNS 60 (i2c_calculate_high_note 60 4 SemitoneMode.skip) = 4 ∧
     (∀ k, 60 ≤ k → countNS 60 k = 4 → i2c_calculate_high_note 60 4 SemitoneMode.skip ≤ k) ∧
     pca_calculate_high_note 60 4 SemitoneMode.skip =
       i2c_calculate_high_note 60 4 SemitoneMode.skip) :=
  ⟨by norm_num,
   C4_high_note_smallest_window.1 60 4 SemitoneMode.skip (by decide) (by norm_num)
     (by norm_num) (by norm_num)⟩

/-- Counterexample to C5: with low_note=120, note_count=8, SKIP, only 5
non-semitone notes exist in [120, 127], yet the pca9685 and mallet
implementations of `calculate_high_note` continue past 127 and return
132 — they have no clamp at note 127, so the claim fails for them. -/
theorem C5_counterexample :
    countNS 120 127 = 5 ∧ 5 < 8 ∧
    pca_calculate_high_note 120 8 SemitoneMode.skip = 132 ∧
    mallet_calculate_high_note 120 8 SemitoneMode.skip = 132 ∧
    ¬ pca_calculate_high_note 120 8 SemitoneMode.skip ≤ 127 := by
  decide

/-- C5 as amended: only the i2c_midi implementation clamps its iteration
at note 127 — when fewer than `note_count` non-semitone notes exist in
`[low_note, 127]` it returns exactly 127; the pca9685 and mallet
implementations iterate past 127 without a clamp (returning 132 at
low_note=120, note_count=8). -/
theorem C5_amended :
    (∀ (low range : Nat) (mode : SemitoneMode), mode ≠ SemitoneMode.play →
      low ≤ 127 → 1 ≤ range → range ≤ 16 → countNS low 127 < range →
      i2c_calculate_high_note low range mode = 127) ∧
    i2c_calculate_high_note 120 8 SemitoneMode.skip = 127 ∧
    pca_calculate_high_note 120 8 SemitoneMode.skip = 132 ∧
    mallet_calculate_high_note 120 8 SemitoneMode.skip = 132 := by
  refine ⟨?_, by decide, by decide, by decide⟩
  intro low range mode hm hlow h1 h16 hins
  unfold i2c_calculate_high_note
  rw [if_neg hm]
  exact i2cHighLoop_clamp 127 0 range low (by omega) hlow (by simpa using hins) (by omega)

/-- Witness for C5 as amended at low_note=120, note_count=8, SKIP. -/
theorem C5_amended_witness :
    countNS 120 127 < 8 ∧ i2c_calculate_high_note 120 8 SemitoneMode.skip = 127 :=
  ⟨by decide,
   C5_amended.1 120 8 SemitoneMode.skip (by decide) (by norm_num) (by norm_num) (by norm_num)
     (by decide)⟩

lemma countP_single {α : Type} [DecidableEq α] (f : α → Bool) (a : α) :
    ∀ l : List α, l.Nodup → a ∈ l →
      l.countP (fun x => decide (x = a) && f x) = if f a then 1 else 0 := by
  intro l
  induction l with
  | nil =>
    intro _ h
    exact absurd h (List.not_mem_nil a)
  | cons x xs ih =>
    intro hnd hmem
    rw [List.countP_cons]
    by_cases hxa : x = a
    · subst hxa
      have hnx : x ∉ xs := (List.nodup_cons.mp hnd).1
      have hz : xs.countP (fun y => decide (y = x) && f y) = 0 := by
        rw [List.countP_eq_zero]
        intro y hy
        have hyx : y ≠ x := fun e => hnx (e ▸ hy)
        simp [hyx]
      rw [hz]
      cases hf : f x <;> simp [hf]
    · have hmem' : a ∈ xs := by
        rcases List.mem_cons.mp hmem with h | h
        · exact absurd h.symm hxa
        · exact h
      rw [ih (List.nodup_cons.mp hnd).2 hmem']
      have hx0 : (decide (x = a) && f x) = false := by simp [hxa]
      rw [hx0]
      simp

/-- Number of rest commands issued by one `pca9685_midi_update` scan for
a given servo index: one exactly when that servo's entry fires. -/
lemma pca_update_cmd_count (cfg : PcaConfig) (now : Nat) (sts : ServoStates) (i : Fin 16) :
    (pca9685_midi_update cfg now sts).2.countP (fun p => decide (p.1 = (i : Nat))) =
      if (pca9685_update_entry cfg now (sts i)).2 then 1 else 0 := by
  unfold pca9685_midi_update
  rw [List.countP_map, List.countP_filter]
  have e : (fun (j : Fin 16) =>
      ((fun p : Nat × Nat => decide (p.1 = (i : Nat))) ∘
        (fun j : Fin 16 => (j.val, cfg.rest_angle))) j &&
        (fun j : Fin 16 => (pca9685_update_entry cfg now (sts j)).2) j) =
      (fun (j : Fin 16) => decide (j = i) && (pca9685_update_entry cfg now (sts j)).2) := by
    funext j
    simp only [Function.comp]
    congr 1
    rw [decide_eq_decide]
    exact Fin.val_inj
  rw [e]
  exact countP_single (fun j => (pca9685_update_entry cfg now (sts j)).2) i
    (List.finRange 16) (List.nodup_finRange 16) (List.mem_finRange i)

/-- C8 as amended: for a channel armed Striking with a NONZERO return
time T, `update(t)` with t < T leaves the entry untouched and issues no
rest command for it; with t ≥ T it moves the entry to Idle at the rest
angle and issues exactly one rest command; and any further update after
the transition leaves the entry unchanged and issues no command for it.
(The amendment excludes T = 0: the code uses `return_time > 0` as the
armed test, so a strike whose computed `uint32_t` return time wraps to
exactly 0 is never auto-returned.) -/
theorem C8_amended (cfg : PcaConfig) (sts : ServoStates) (i : Fin 16) (T t : Nat)
    (hstrike : (sts i).striking = true) (hT : (sts i).return_time = T) (hT0 : T ≠ 0) :
    (t < T →
      (pca9685_midi_update cfg t sts).1 i = sts i ∧
      (pca9685_midi_update cfg t sts).2.countP (fun p => decide (p.1 = (i : Nat))) = 0) ∧
    (T ≤ t →
      (pca9685_midi_update cfg t sts).1 i =
        { sts i with current_angle := cfg.rest_angle, striking := false, return_time := 0 } ∧
      (pca9685_midi_update cfg t sts).2.countP (fun p => decide (p.1 = (i : Nat))) = 1 ∧
      (∀ t2 : Nat,
        (pca9685_midi_update cfg t2 (pca9685_midi_update cfg t sts).1).1 i =
          (pca9685_midi_update cfg t sts).1 i ∧
        (pca9685_midi_update cfg t2 (pca9685_midi_update cfg t sts).1).2.countP
          (fun p => decide (p.1 = (i : Nat))) = 0)) := by
  constructor
  · intro hlt
    have hentry : pca9685_update_entry cfg t (sts i) = (sts i, false) := by
      unfold pca9685_update_entry
      rw [if_neg]
      intro hx
      omega
    constructor
    · show (pca9685_update_entry cfg t (sts i)).1 = sts i
      rw [hentry]
    · rw [pca_update_cmd_count, hentry]
      simp
  · intro hge
    have hentry : pca9685_update_entry cfg t (sts i) =
        ({ sts i with current_angle := cfg.rest_angle, striking := false, return_time := 0 },
         true) := by
      unfold pca9685_update_entry
      rw [if_pos]
      exact ⟨hstrike, by omega, by omega⟩
    have hfired1 : (pca9685_midi_update cfg t sts).1 i =
        { sts i with current_angle := cfg.rest_angle, striking := false, return_time := 0 } := by
      show (pca9685_update_entry cfg t (sts i)).1 = _
      rw [hentry]
    refine ⟨hfired1, ?_, ?_⟩
    · rw [pca_update_cmd_count, hentry]
      simp
    · intro t2
      have hidle : pca9685_update_entry cfg t2 ((pca9685_midi_update cfg t sts).1 i) =
          ((pca9685_midi_update cfg t sts).1 i, false) := by
        rw [hfired1]
        unfold pca9685_update_entry
        rw [if_neg]
        intro hx
        exact Bool.false_ne_true hx.1
      constructor
      · show (pca9685_update_entry cfg t2 ((pca9685_midi_update cfg t sts).1 i)).1 = _
        rw [hidle]
      · rw [pca_update_cmd_count, hidle]
        simp

/-- Counterexample to C8 as originally stated: striking at clock value
4294917296 with a 50 ms strike duration computes return time
(4294917296 + 50000) mod 2^32 = 0; the channel is armed Striking with
T = 0, yet `update(1000)` — with 1000 ≥ T — issues no rest command and
leaves the channel Striking forever, because the code treats
`return_time == 0` as disarmed. -/
theorem C8_counterexample :
    ((pca9685_midi_strike_servo demoServoConfig true 4294917296 idleServoStates 0).2.1
      ⟨0, by norm_num⟩).striking = true ∧
    ((pca9685_midi_strike_servo demoServoConfig true 4294917296 idleServoStates 0).2.1
      ⟨0, by norm_num⟩).return_time = 0 ∧
    (pca9685_midi_update demoServoConfig 1000
      (pca9685_midi_strike_servo demoServoConfig true 4294917296 idleServoStates 0).2.1).2 =
      [] ∧
    ((pca9685_midi_update demoServoConfig 1000
      (pca9685_midi_strike_servo demoServoConfig true 4294917296 idleServoStates 0).2.1).1
      ⟨0, by norm_num⟩).striking = true := by
  decide

/-- Witness for C8 as amended: servo 0 armed by a Note-On dispatch at
t = 0 with a 50 ms strike (T = 50000 microseconds); update(49999) leaves
it Striking with no command, update(50000) fires the single rest command
and idles it, and a further update changes nothing. -/
theorem C8_amended_witness :
    (((pca9685_midi_process_message demoServoConfig true 0 idleServoStates 0x99 60 100).2.1
        ⟨0, by norm_num⟩).striking = true ∧
     ((pca9685_midi_process_message demoServoConfig true 0 idleServoStates 0x99 60 100).2.1
        ⟨0, by norm_num⟩).return_time = 50000) ∧
    ((pca9685_midi_update demoServoConfig 49999
        (pca9685_midi_process_message demoServoConfig true 0 idleServoStates 0x99 60 100).2.1).1
        ⟨0, by norm_num⟩ =
      (pca9685_midi_process_message demoServoConfig true 0 idleServoStates 0x99 60 100).2.1
        ⟨0, by norm_num⟩ ∧
     (pca9685_midi_update demoServoConfig 49999
        (pca9685_midi_process_message demoServoConfig true 0 idleServoStates 0x99 60 100).2.1).2.countP
        (fun p => decide (p.1 = ((⟨0, by norm_num⟩ : Fin 16) : Nat))) = 0) ∧
    ((pca9685_midi_update demoServoConfig 50000
        (pca9685_midi_process_message demoServoConfig true 0 idleServoStates 0x99 60 100).2.1).1
        ⟨0, by norm_num⟩ =
      { (pca9685_midi_process_message demoServoConfig true 0 idleServoStates 0x99 60 100).2.1
          ⟨0, by norm_num⟩ with
        current_angle := demoServoConfig.rest_angle
        striking := false
        return_time := 0 } ∧
     (pca9685_midi_update demoServoConfig 50000
        (pca9685_midi_process_message demoServoConfig true 0 idleServoStates 0x99 60 100).2.1).2.countP
        (fun p => decide (p.1 = ((⟨0, by norm_num⟩ : Fin 16) : Nat))) = 1) :=
  ⟨⟨by decide, by decide⟩,
   (C8_amended demoServoConfig
     (pca9685_midi_process_message demoServoConfig true 0 idleServoStates 0x99 60 100).2.1
     ⟨0, by norm_num⟩ 50000 49999 (by decide) (by decide) (by norm_num)).1 (by norm_num),
   ⟨((C8_amended demoServoConfig
      (pca9685_midi_process_message demoServoConfig true 0 idleServoStates 0x99 60 100).2.1
      ⟨0, by norm_num⟩ 50000 50000 (by decide) (by decide) (by norm_num)).2 (by norm_num)).1,
    ((C8_amended demoServoConfig
      (pca9685_midi_process_message demoServoConfig true 0 idleServoStates 0x99 60 100).2.1
      ⟨0, by norm_num⟩ 50000 50000 (by decide) (by decide) (by norm_num)).2 (by norm_num)).2.1⟩⟩

/-- Re-saving the defaults record recomputes the identical CRC, so the
image persisted by the fallback path equals `config_defaults`. -/
lemma config_save_image_defaults : config_save_image config_defaults = config_defaults := by
  decide

/-- The compiled-in defaults pass validation. -/
lemma config_defaults_valid : config_validate config_defaults = true := by
  decide

/-- C3: a stored record that fails validation makes `config_load` fall
back to the compiled-in defaults and re-persist them; flipping any single
byte of a valid 33-byte record makes validation fail (and hence triggers
that same fallback); and `config_load` never yields a record that fails
validation. -/
theorem C3_load_corruption_fallback :
    (∀ (bs : List Nat) (writeOk : Bool), config_validate bs = false →
      config_load (some bs) writeOk =
        { settings := config_defaults, persisted := some config_defaults, ok := writeOk }) ∧
    (∀ bs : List Nat, config_validate bs = true → bs.length = 33 → (∀ x ∈ bs, x < 256) →
      ∀ i, i < 33 → ∀ b, b < 256 → b ≠ byteAt bs i →
      config_validate (bs.set i b) = false ∧
      ∀ writeOk, config_load (some (bs.set i b)) writeOk =
        { settings := config_defaults, persisted := some config_defaults, ok := writeOk }) ∧
    (∀ (r : Option (List Nat)) (writeOk : Bool),
      config_validate (config_load r writeOk).settings = true) := by
  have hfall : ∀ (bs : List Nat) (writeOk : Bool), config_validate bs = false →
      config_load (some bs) writeOk =
        { settings := config_defaults, persisted := some config_defaults, ok := writeOk } := by
    intro bs writeOk h
    simp [config_load, h, config_save_image_defaults]
  refine ⟨hfall, ?_, ?_⟩
  · intro bs hv hlen hbytes i hi b hb hne
    have hflip := config_validate_set_false bs hv hlen hbytes i hi b hb hne
    exact ⟨hflip, fun writeOk => hfall _ writeOk hflip⟩
  · intro r writeOk
    match r with
    | none =>
      show config_validate config_defaults = true
      exact config_defaults_valid
    | some bs =>
      by_cases h : config_validate bs = true
      · simp [config_load, h]
      · have h' : config_validate bs = false := by
          cases h2 : config_validate bs
          · rfl
          · exact absurd h2 h
        rw [hfall bs writeOk h']
        exact config_defaults_valid

/-- Witness for C3: the all-zero record is invalid and load falls back;
flipping the low_note byte (offset 7) of the valid defaults record from
60 to 61 invalidates it (CRC mismatch) and load falls back there too. -/
theorem C3_load_corruption_fallback_witness :
    (config_validate (List.replicate 33 0) = false ∧
     config_load (some (List.replicate 33 0)) true =
       { settings := config_defaults, persisted := some config_defaults, ok := true }) ∧
    (config_validate (config_defaults.set 7 61) = false ∧
     config_load (some (config_defaults.set 7 61)) true =
       { settings := config_defaults, persisted := some config_defaults, ok := true }) ∧
    config_validate (config_load (some (config_defaults.set 7 61)) true).settings = true :=
  ⟨⟨by decide, C3_load_corruption_fallback.1 (List.replicate 33 0) true (by decide)⟩,
   ⟨(C3_load_corruption_fallback.2.1 config_defaults (by decide) (by decide) (by decide)
       7 (by norm_num) 61 (by norm_num) (by decide)).1,
    (C3_load_corruption_fallback.2.1 config_defaults (by decide) (by decide) (by decide)
       7 (by norm_num) 61 (by norm_num) (by decide)).2 true⟩,
   C3_load_corruption_fallback.2.2 (some (config_defaults.set 7 61)) true⟩

/-- The defaults record with the schema version byte set to 2 and the
CRC recomputed accordingly: magic, CRC and all field ranges are valid,
only the version differs from `CONFIG_VERSION = 1`. -/
def config_version2_record : List Nat :=
  ([0x4E, 0x59, 0x53, 0x4D, 2, 10, 8, 60, 0, 0, 0, 0x20, 1, 128, 30] ++
    List.replicate 16 0) ++
    [calculate_crc16 ([0x4E, 0x59, 0x53, 0x4D, 2, 10, 8, 60, 0, 0, 0, 0x20, 1, 128, 30] ++
      List.replicate 16 0) % 256,
     calculate_crc16 ([0x4E, 0x59, 0x53, 0x4D, 2, 10, 8, 60, 0, 0, 0, 0x20, 1, 128, 30] ++
      List.replicate 16 0) / 256]

/-- C10: a stored record with valid magic, CRC and field ranges but a
schema version byte different from `CONFIG_VERSION` (1) still passes
`config_validate` (the version check only logs a warning), so
`config_load` keeps it as-is, persisting nothing. -/
theorem C10_version_mismatch_accepted :
    config_validate config_version2_record = true ∧
    byteAt config_version2_record 4 = 2 ∧
    (∀ (bs : List Nat) (writeOk : Bool), config_validate bs = true →
      config_load (some bs) writeOk = { settings := bs, persisted := none, ok := true }) := by
  refine ⟨by decide, by decide, ?_⟩
  intro bs writeOk h
  simp [config_load, h]

/-- Witness for C10 at the concrete version-2 record. -/
theorem C10_version_mismatch_accepted_witness :
    config_load (some config_version2_record) true =
      { settings := config_version2_record, persisted := none, ok := true } :=
  C10_version_mismatch_accepted.2.2 config_version2_record true (by decide)

end MidiSynth


